import Mathlib

/-!
Formal model of the shape-padding optimization pass for matmul operators,
translated from `torch/_inductor/fx_passes/pad_mm.py`.

Modelling conventions:
* A compile-time dimension (`int` or `torch.SymInt` with a hint) is `DimSize`.
* Fake-tensor metadata (shape, stride, dtype) is `TensorDesc`; real tensor
  values are `Mat2` (2-D) and `Mat3` (batched 3-D) with exact rational
  entries (floating-point arithmetic is modelled exactly over `ℚ`).
* External collaborators (cutlass probe, triton availability, device
  characteristics, the do_bench timer) are an explicit environment record;
  a Python exception in a collaborator is `Except.error`.
* The process-wide decision cache (`LocalCache`) is passed in and out of
  `should_pad_bench` explicitly, together with a counter of how many
  empirical benchmarking passes the call executed.
-/

/-- A dimension of a (possibly symbolic) tensor shape: either a concrete
`int` or a `torch.SymInt` that carries a concrete hint. -/
inductive DimSize where
  | concrete (n : ℕ)
  | symbolic (hint : ℕ)
deriving DecidableEq

/-- `isinstance(x, torch.SymInt)` on a shape dimension. -/
def DimSize.isSymbolic : DimSize → Bool
  | .concrete _ => false
  | .symbolic _ => true

/-- The concrete value used when arithmetic is performed on the dimension
(the int itself, or the SymInt hint). -/
def DimSize.val : DimSize → ℕ
  | .concrete n => n
  | .symbolic h => h

/-- The dtypes distinguished by `get_alignment_size`: half-precision class
(float16 / half / bfloat16), single precision (float32 / float), and all
other dtypes. -/
inductive DType where
  | float16
  | bfloat16
  | float32
  | other
deriving DecidableEq

/-- Fake-tensor metadata seen by the decision procedure. -/
structure TensorDesc where
  shape : List DimSize
  stride : List DimSize
  dtype : DType
deriving DecidableEq

/-- `get_alignment_size` of `pad_mm.py` (lines 40-46), on the dtype:
8 elements for half-precision dtypes, 4 for single precision, 0 otherwise. -/
def get_alignment_size_dtype : DType → ℕ
  | .float16 => 8
  | .bfloat16 => 8
  | .float32 => 4
  | .other => 0

/-- `get_alignment_size(x)` reads only `x.dtype`. -/
def get_alignment_size (t : TensorDesc) : ℕ :=
  get_alignment_size_dtype t.dtype

/-- `t.shape[i]` on a tensor descriptor. -/
def tdim (t : TensorDesc) (i : ℕ) : DimSize :=
  t.shape.getD i (.concrete 0)

/-- `get_padded_length(x, alignment_size)` of `pad_mm.py` (lines 166-170):
symbolic dimensions and alignment 0 are never padded; an already aligned
dimension needs no padding; otherwise round up to the next multiple. -/
def get_padded_length (x : DimSize) (alignment_size : ℕ) : ℕ :=
  match x with
  | .symbolic _ => 0
  | .concrete n =>
    if alignment_size = 0 then 0
    else if n % alignment_size = 0 then 0
    else (n / alignment_size + 1) * alignment_size - n

/-- A 2-D tensor value: a rows × cols matrix of exact rationals.  The entry
function is total; only indices below the bounds are meaningful. -/
structure Mat2 where
  rows : ℕ
  cols : ℕ
  entry : ℕ → ℕ → ℚ

/-- `x.transpose(-1, -2)` on a 2-D tensor. -/
def Mat2.transpose (A : Mat2) : Mat2 :=
  ⟨A.cols, A.rows, fun i j => A.entry j i⟩

/-- `aten.constant_pad_nd(x, [0, col_pad, 0, row_pad])` on a 2-D tensor:
append `row_pad` zero rows and `col_pad` zero columns. -/
def constant_pad_nd2 (A : Mat2) (row_pad col_pad : ℕ) : Mat2 :=
  ⟨A.rows + row_pad, A.cols + col_pad,
    fun i j => if i < A.rows ∧ j < A.cols then A.entry i j else 0⟩

/-- `res[:-p, :]` — drop the trailing `p` rows (entries are unchanged). -/
def slice_rows (A : Mat2) (p : ℕ) : Mat2 :=
  ⟨A.rows - p, A.cols, A.entry⟩

/-- `res[:, :-p]` — drop the trailing `p` columns. -/
def slice_cols (A : Mat2) (p : ℕ) : Mat2 :=
  ⟨A.rows, A.cols - p, A.entry⟩

/-- `aten.mm`: matrix product; the contraction length is the left operand's
column count (callers must have `A.cols = B.rows`). -/
def mm2 (A B : Mat2) : Mat2 :=
  ⟨A.rows, B.cols, fun i j => ∑ l ∈ Finset.range A.cols, A.entry i l * B.entry l j⟩

/-- `pad_mm` of `pad_mm.py` (lines 558-593).  `.contiguous()` only changes
the memory layout, not values, and is omitted. -/
def pad_mm (mat1 mat2 : Mat2) (m_padded_length k_padded_length n_padded_length : ℕ)
    (explicit_transpose : Bool) : Mat2 :=
  let mat1_padded :=
    if k_padded_length ≠ 0 ∨ m_padded_length ≠ 0 then
      constant_pad_nd2 mat1 m_padded_length k_padded_length
    else mat1
  let mat2_padded :=
    if k_padded_length ≠ 0 ∨ n_padded_length ≠ 0 then
      constant_pad_nd2 mat2 k_padded_length n_padded_length
    else mat2
  let res :=
    if explicit_transpose then
      (mm2 mat2_padded.transpose mat1_padded.transpose).transpose
    else
      mm2 mat1_padded mat2_padded
  let res2 := if m_padded_length ≠ 0 then slice_rows res m_padded_length else res
  if n_padded_length ≠ 0 then slice_cols res2 n_padded_length else res2

/-- A batched 3-D tensor value. -/
structure Mat3 where
  batch : ℕ
  rows : ℕ
  cols : ℕ
  entry : ℕ → ℕ → ℕ → ℚ

/-- `x.transpose(-1, -2)` on a 3-D tensor. -/
def Mat3.transpose (A : Mat3) : Mat3 :=
  ⟨A.batch, A.cols, A.rows, fun b i j => A.entry b j i⟩

/-- `aten.constant_pad_nd(x, [0, col_pad, 0, row_pad, 0, 0])`: the batch
dimension is never padded. -/
def constant_pad_nd3 (A : Mat3) (row_pad col_pad : ℕ) : Mat3 :=
  ⟨A.batch, A.rows + row_pad, A.cols + col_pad,
    fun b i j => if i < A.rows ∧ j < A.cols then A.entry b i j else 0⟩

/-- `res[:, :-p, :]`. -/
def slice_rows3 (A : Mat3) (p : ℕ) : Mat3 :=
  ⟨A.batch, A.rows - p, A.cols, A.entry⟩

/-- `res[:, :, :-p]`. -/
def slice_cols3 (A : Mat3) (p : ℕ) : Mat3 :=
  ⟨A.batch, A.rows, A.cols - p, A.entry⟩

/-- `aten.bmm`: batched matrix product. -/
def bmm3 (A B : Mat3) : Mat3 :=
  ⟨A.batch, A.rows, B.cols,
    fun b i j => ∑ l ∈ Finset.range A.cols, A.entry b i l * B.entry b l j⟩

/-- `pad_bmm` of `pad_mm.py` (lines 638-671). -/
def pad_bmm (mat1 mat2 : Mat3) (m_padded_length k_padded_length n_padded_length : ℕ)
    (explicit_transpose : Bool) : Mat3 :=
  let mat1_padded :=
    if k_padded_length ≠ 0 ∨ m_padded_length ≠ 0 then
      constant_pad_nd3 mat1 m_padded_length k_padded_length
    else mat1
  let mat2_padded :=
    if k_padded_length ≠ 0 ∨ n_padded_length ≠ 0 then
      constant_pad_nd3 mat2 k_padded_length n_padded_length
    else mat2
  let res :=
    if explicit_transpose then
      (bmm3 mat2_padded.transpose mat1_padded.transpose).transpose
    else
      bmm3 mat1_padded mat2_padded
  let res2 := if m_padded_length ≠ 0 then slice_rows3 res m_padded_length else res
  if n_padded_length ≠ 0 then slice_cols3 res2 n_padded_length else res2

/-- An `addmm` bias value: rank 1 (a vector) or rank 2 (a matrix).
`aten.addmm` broadcasts it against the product's (M, N) shape. -/
inductive BiasT where
  | vec (n : ℕ) (v : ℕ → ℚ)
  | mat (b : Mat2)

/-- `input.unsqueeze(0)` applied when `len(input.shape) < 2`
(`pad_addmm`, lines 241-246): a rank-1 bias becomes a `1 × n` matrix. -/
def unsqueeze0 : BiasT → Mat2
  | .vec n v => ⟨1, n, fun _ j => v j⟩
  | .mat b => b

/-- The value a broadcast bias contributes at position `(i, j)` of the
result: a size-1 dimension is broadcast (index 0 is read), a rank-1 bias is
broadcast over rows. -/
def bias_at (bias : BiasT) (i j : ℕ) : ℚ :=
  match bias with
  | .vec n v => if n = 1 then v 0 else v j
  | .mat b => b.entry (if b.rows = 1 then 0 else i) (if b.cols = 1 then 0 else j)

/-- The PyTorch broadcast-compatibility condition of a bias against an
`M × N` product. -/
def broadcast_ok (bias : BiasT) (M N : ℕ) : Prop :=
  match bias with
  | .vec n _ => n = N ∨ n = 1
  | .mat b => (b.rows = M ∨ b.rows = 1) ∧ (b.cols = N ∨ b.cols = 1)

/-- `aten.addmm(bias, mat1, mat2, beta=beta, alpha=alpha)`:
`beta * bias + alpha * (mat1 @ mat2)` with `bias` broadcast. -/
def aten_addmm (bias : BiasT) (mat1 mat2 : Mat2) (beta alpha : ℚ) : Mat2 :=
  ⟨mat1.rows, mat2.cols,
    fun i j => beta * bias_at bias i j + alpha * (mm2 mat1 mat2).entry i j⟩

/-- The squeeze performed by `call_addmm` (lines 187-190): a `1 × n` bias is
squeezed to rank 1 before `aten.addmm` is invoked. -/
def call_bias_view (bias : Mat2) : BiasT :=
  if bias.rows = 1 then .vec bias.cols (fun j => bias.entry 0 j) else .mat bias

/-- `call_addmm` (lines 187-190). -/
def call_addmm (bias : Mat2) (mat1 mat2 : Mat2) (beta alpha : ℚ) : Mat2 :=
  aten_addmm (call_bias_view bias) mat1 mat2 beta alpha

/-- The broadcast-aware bias padding of `pad_addmm` (lines 247-262), applied
to the already rank-2 (possibly unsqueezed) bias.  `mat1` and `mat2` are the
ORIGINAL operands: the guards compare against `mat1.shape[0]` and
`mat2.shape[1]`. -/
def pad_addmm_bias (input2 : Mat2) (mat1 mat2 : Mat2)
    (m_padded_length n_padded_length : ℕ) : Mat2 :=
  if n_padded_length ≠ 0 ∨ m_padded_length ≠ 0 then
    let bias_m_padded_length := if input2.rows = 1 ∧ 1 < mat1.rows then 0 else m_padded_length
    let bias_n_padded_length := if input2.cols = 1 ∧ 1 < mat2.cols then 0 else n_padded_length
    if 0 < bias_m_padded_length ∨ 0 < bias_n_padded_length then
      constant_pad_nd2 input2 bias_m_padded_length bias_n_padded_length
    else input2
  else input2

/-- `pad_addmm` of `pad_mm.py` (lines 215-298).  A `none` bias on the
non-transpose path is rejected (`aten.addmm` requires a bias tensor); in the
explicit-transpose path the bias is added manually after the transposed
matmul, with `alpha`/`beta` applied unless both are 1. -/
def pad_addmm (input : Option BiasT) (mat1 mat2 : Mat2)
    (m_padded_length k_padded_length n_padded_length : ℕ)
    (beta alpha : ℚ) (explicit_transpose : Bool) : Option Mat2 :=
  let mat1_padded :=
    if k_padded_length ≠ 0 ∨ m_padded_length ≠ 0 then
      constant_pad_nd2 mat1 m_padded_length k_padded_length
    else mat1
  let mat2_padded :=
    if k_padded_length ≠ 0 ∨ n_padded_length ≠ 0 then
      constant_pad_nd2 mat2 k_padded_length n_padded_length
    else mat2
  if explicit_transpose then
    let res := (mm2 mat2_padded.transpose mat1_padded.transpose).transpose
    let res2 := if m_padded_length ≠ 0 then slice_rows res m_padded_length else res
    let res3 := if n_padded_length ≠ 0 then slice_cols res2 n_padded_length else res2
    match input with
    | none => some res3
    | some b =>
      some ⟨res3.rows, res3.cols, fun i j =>
        if alpha = 1 ∧ beta = 1 then res3.entry i j + bias_at b i j
        else alpha * res3.entry i j + beta * bias_at b i j⟩
  else
    match input with
    | none => none
    | some b =>
      let input_padded := pad_addmm_bias (unsqueeze0 b) mat1 mat2
          m_padded_length n_padded_length
      let res := call_addmm input_padded mat1_padded mat2_padded beta alpha
      let res2 := if m_padded_length ≠ 0 then slice_rows res m_padded_length else res
      some (if n_padded_length ≠ 0 then slice_cols res2 n_padded_length else res2)

/-- The matmul-family operator being matched. `other` stands for any
operator that is none of `aten.mm`, `aten.bmm`, `aten.addmm`. -/
inductive MMOp where
  | mm
  | bmm
  | addmm
  | other
deriving DecidableEq

/-- The `torch._inductor.config` flags and the TF32 backend flag consumed by
the pass. -/
structure Config where
  shape_pad_use_transpose : Bool
  force_shape_pad : Bool
  allow_tf32 : Bool
deriving DecidableEq

/-- `may_use_transpose` (e.g. line 419-421): the config flag together with
all of m, n, k being non-symbolic. -/
def may_use_transpose (cfg : Config) (m n k : DimSize) : Bool :=
  cfg.shape_pad_use_transpose && !(m.isSymbolic || n.isSymbolic || k.isSymbolic)

/-- The per-candidate padding plan (§3 of the design): pad amounts for the
three gemm dimensions plus the explicit-transpose choice. -/
structure PaddingPlan where
  m_pad : ℕ
  k_pad : ℕ
  n_pad : ℕ
  explicit_transpose : Bool
deriving DecidableEq

/-- The plan computation inside `should_pad_bench` (lines 402-428), given
the already extracted m, k, n dimensions. -/
def bench_plan_of_dims (cfg : Config) (mat1 mat2 : TensorDesc) (m k n : DimSize) :
    PaddingPlan :=
  let k_padded_length := get_padded_length k (get_alignment_size mat1)
  let n_padded_length := get_padded_length n (get_alignment_size mat2)
  let m_padded_length := get_padded_length m (get_alignment_size mat1)
  if may_use_transpose cfg m n k then
    if m_padded_length = 0 ∧ n_padded_length ≠ 0 then
      ⟨0, k_padded_length, 0, true⟩
    else if n_padded_length = 0 ∧ m_padded_length ≠ 0 then
      ⟨0, k_padded_length, n_padded_length, false⟩
    else
      ⟨m_padded_length, k_padded_length, n_padded_length, false⟩
  else
    ⟨m_padded_length, k_padded_length, n_padded_length, false⟩

/-- The m, k, n extraction of `should_pad_bench` (lines 402-418): 2-D shapes
for mm/addmm, the trailing two dims for bmm, `none` for any other op. -/
def bench_dims (op : MMOp) (mat1 mat2 : TensorDesc) :
    Option (DimSize × DimSize × DimSize) :=
  match op with
  | .mm => some (tdim mat1 0, tdim mat1 1, tdim mat2 1)
  | .addmm => some (tdim mat1 0, tdim mat1 1, tdim mat2 1)
  | .bmm => some (tdim mat1 1, tdim mat1 2, tdim mat2 2)
  | .other => none

/-- The full padding plan computed (and then benchmarked) by
`should_pad_bench` for a given op and operand pair. -/
def bench_plan (cfg : Config) (op : MMOp) (mat1 mat2 : TensorDesc) :
    Option PaddingPlan :=
  match bench_dims op mat1 mat2 with
  | none => none
  | some (m, k, n) => some (bench_plan_of_dims cfg mat1 mat2 m k n)

/-- The plan computed by `mm_replace` (lines 596-611) before it calls
`pad_mm`. -/
def mm_replace_plan (cfg : Config) (mat1 mat2 : TensorDesc) : PaddingPlan :=
  let m := tdim mat1 0
  let n := tdim mat2 1
  let k := tdim mat1 1
  let k_padded_length := get_padded_length k (get_alignment_size mat1)
  let m_padded_length := get_padded_length m (get_alignment_size mat1)
  let n_padded_length := get_padded_length n (get_alignment_size mat2)
  if may_use_transpose cfg m n k then
    if m_padded_length = 0 ∧ n_padded_length ≠ 0 then
      ⟨0, k_padded_length, 0, true⟩
    else if m_padded_length ≠ 0 ∧ n_padded_length = 0 then
      ⟨0, k_padded_length, n_padded_length, false⟩
    else
      ⟨m_padded_length, k_padded_length, n_padded_length, false⟩
  else
    ⟨m_padded_length, k_padded_length, n_padded_length, false⟩

/-- The plan computed by `bmm_replace` (lines 674-690). -/
def bmm_replace_plan (cfg : Config) (mat1 mat2 : TensorDesc) : PaddingPlan :=
  let m := tdim mat1 1
  let n := tdim mat2 2
  let k := tdim mat1 2
  let k_padded_length := get_padded_length k (get_alignment_size mat1)
  let n_padded_length := get_padded_length n (get_alignment_size mat2)
  let m_padded_length := get_padded_length m (get_alignment_size mat1)
  if may_use_transpose cfg m n k then
    if m_padded_length = 0 ∧ n_padded_length ≠ 0 then
      ⟨0, k_padded_length, 0, true⟩
    else if m_padded_length ≠ 0 ∧ n_padded_length = 0 then
      ⟨0, k_padded_length, n_padded_length, false⟩
    else
      ⟨m_padded_length, k_padded_length, n_padded_length, false⟩
  else
    ⟨m_padded_length, k_padded_length, n_padded_length, false⟩

/-- The plan computed by `addmm_replace` (lines 301-318): the explicit
transpose branch additionally requires `len(input.shape) >= 2`. -/
def addmm_replace_plan (cfg : Config) (input mat1 mat2 : TensorDesc) : PaddingPlan :=
  let m := tdim mat1 0
  let n := tdim mat2 1
  let k := tdim mat1 1
  let k_padded_length := get_padded_length k (get_alignment_size mat1)
  let n_padded_length := get_padded_length n (get_alignment_size mat2)
  let m_padded_length := get_padded_length m (get_alignment_size mat1)
  if may_use_transpose cfg m n k then
    if m_padded_length = 0 ∧ n_padded_length ≠ 0 ∧ 2 ≤ input.shape.length then
      ⟨0, k_padded_length, 0, true⟩
    else if m_padded_length ≠ 0 ∧ n_padded_length = 0 then
      ⟨0, k_padded_length, n_padded_length, false⟩
    else
      ⟨m_padded_length, k_padded_length, n_padded_length, false⟩
  else
    ⟨m_padded_length, k_padded_length, n_padded_length, false⟩

/-- Device characteristics used by `is_mm_compute_bound`; a lookup failure
(e.g. on an unsupported vendor) is `Except.error`. -/
structure DeviceEnv where
  get_device_tflops : DType → Except Unit ℚ
  get_gpu_dram_gbps : Except Unit ℚ

/-- `is_mm_compute_bound` of `pad_mm.py` (lines 332-353).  The `try` block
covers the two device lookups and the division; a zero bandwidth raises
`ZeroDivisionError` inside the `try` and is likewise caught, so both cases
return `true`. -/
def is_mm_compute_bound (env : DeviceEnv) (M K N : ℕ) (dtype : DType) : Bool :=
  let denominator := M * K + N * K + M * N
  if denominator = 0 then false
  else
    let arithmetic_intensity : ℚ := (M : ℚ) * N * K / (denominator : ℚ)
    match env.get_device_tflops dtype, env.get_gpu_dram_gbps with
    | .ok t, .ok g =>
      if g = 0 then true
      else
        let machine_balance : ℚ := 1000 * t / g
        decide (arithmetic_intensity > machine_balance * (1 / 2))
    | _, _ => true

/-- The `(shape, stride, dtype)` component of `should_pad_bench_key`. -/
structure TensorKey where
  shape : List DimSize
  stride : List DimSize
  dtype : DType
deriving DecidableEq

/-- `tensor_key(t)` of `should_pad_bench_key` (lines 372-373). -/
def tensor_key (t : TensorDesc) : TensorKey :=
  ⟨t.shape, t.stride, t.dtype⟩

/-- The cache key of `should_pad_bench_key` (lines 369-387). -/
structure BenchKey where
  key1 : TensorKey
  key2 : TensorKey
  op : MMOp
  key_input : Option TensorKey
  tf32 : Option Bool
  force : Bool
deriving DecidableEq

/-- `should_pad_bench_key(mat1, mat2, op, input)`: the TF32 component is
`none` unless `mat1` is float32. -/
def should_pad_bench_key (cfg : Config) (op : MMOp) (mat1 mat2 : TensorDesc)
    (input : Option TensorDesc) : BenchKey :=
  ⟨tensor_key mat1, tensor_key mat2, op, input.map tensor_key,
    if mat1.dtype = DType.float32 then some cfg.allow_tf32 else none,
    cfg.force_shape_pad⟩

/-- The process-wide `LocalCache`, modelled as an association list. -/
abbrev PadCache := List (BenchKey × Bool)

/-- `get_cached_should_pad(key)`. -/
def cache_lookup : PadCache → BenchKey → Option Bool
  | [], _ => none
  | (k, v) :: rest, key => if k = key then some v else cache_lookup rest key

/-- The external collaborators consulted by `should_pad_bench`:
the cutlass template probe (whose `AssertionError` is caught), triton
availability, device characteristics, the module-level
`_skip_do_bench_times` test flag, and the two `do_bench` timings. -/
structure BenchEnv where
  dev : DeviceEnv
  cutlass_probe : Except Unit Bool
  has_triton : Bool
  skip_do_bench_times : Bool
  ori_time : ℚ
  pad_time : ℚ

/-- `should_pad_bench` of `pad_mm.py` (lines 390-539).  Returns the decision
together with the updated cache and the number of empirical benchmarking
passes executed by this call (0 or 1). -/
def should_pad_bench (cfg : Config) (env : BenchEnv) (op : MMOp)
    (mat1 mat2 : TensorDesc) (input : Option TensorDesc) (cache : PadCache) :
    Bool × PadCache × ℕ :=
  match bench_dims op mat1 mat2 with
  | none => (false, cache, 0)
  | some (m, k, n) =>
    let plan := bench_plan_of_dims cfg mat1 mat2 m k n
    if plan.m_pad = 0 ∧ plan.k_pad = 0 ∧ plan.n_pad = 0 ∧
        plan.explicit_transpose = false then
      (false, cache, 0)
    else if cfg.force_shape_pad then
      (true, cache, 0)
    else
      match env.cutlass_probe with
      | .ok true => (true, cache, 0)
      | _ =>
        if env.has_triton = false then (false, cache, 0)
        else if is_mm_compute_bound env.dev m.val k.val n.val mat1.dtype = false then
          (false, cache, 0)
        else
          let key := should_pad_bench_key cfg op mat1 mat2 input
          match cache_lookup cache key with
          | some cached_pad => (cached_pad, cache, 0)
          | none =>
            let should_pad :=
              env.skip_do_bench_times || decide (env.ori_time > env.pad_time * (11 / 10))
            (should_pad, (key, should_pad) :: cache, 1)

/-- The `node.op` kinds of a functionalized FX graph.  `call_method` and
`call_module` trip the assertion in `_result_layout_affects_graph_output`. -/
inductive NodeOp where
  | placeholder
  | get_attr
  | call_function
  | call_method
  | call_module
  | output
deriving DecidableEq

/-- A value traversed by `recursively_search`: an FX node (with its identity,
op kind, whether its target is in `_LAYOUT_REPLACING_FUNCTIONS`, and its
args / kwargs values), a list/tuple of values, or any other constant. -/
inductive FxElem where
  | node (nid : ℕ) (nop : NodeOp) (layout_replacing : Bool)
      (args : List FxElem) (kwargs : List FxElem)
  | nested (xs : List FxElem)
  | const

mutual

/-- `recursively_search(n, depth)` of `_result_layout_affects_graph_output`
(lines 99-124).  `depth == 0` raises, identity with the search node is
checked first, list/tuple values are searched elementwise, non-node values
stop the search, a non-functionalized op asserts, only `call_function` and
`output` nodes are traversed, a layout-replacing target cuts the branch, and
otherwise args then kwargs are searched at `depth - 1`. -/
def recursively_search (sid depth : ℕ) (a : FxElem) : Except Unit Bool :=
  if depth = 0 then .error ()
  else
    match a with
    | .node nid nop layout_replacing args kwargs =>
      if nid = sid then .ok true
      else
        match nop with
        | .call_method => .error ()
        | .call_module => .error ()
        | .placeholder => .ok false
        | .get_attr => .ok false
        | .call_function | .output =>
          if layout_replacing then .ok false
          else
            match search_any sid (depth - 1) args with
            | .error e => .error e
            | .ok true => .ok true
            | .ok false => search_any sid (depth - 1) kwargs
    | .nested xs => search_any sid (depth - 1) xs
    | .const => .ok false

/-- Python's short-circuiting `any(...)` over a generator of
`recursively_search` calls: an exception in an element propagates. -/
def search_any (sid depth : ℕ) (xs : List FxElem) : Except Unit Bool :=
  match xs with
  | [] => .ok false
  | x :: rest =>
    match recursively_search sid depth x with
    | .error e => .error e
    | .ok true => .ok true
    | .ok false => search_any sid depth rest

end

/-- `n.op == "output"`. -/
def FxElem.is_output : FxElem → Bool
  | .node _ .output _ _ _ => true
  | _ => false

/-- `_result_layout_affects_graph_output(match)` (lines 85-128), given the
graph's nodes and the matched candidate's node identity.  Each output node
is searched with the default depth 100000. -/
def result_layout_affects_graph_output (graph : List FxElem) (sid : ℕ) :
    Except Unit Bool :=
  let output_nodes := graph.filter FxElem.is_output
  if output_nodes.length = 0 then .ok false
  else search_any sid 100000 output_nodes

/-- A dataflow path from a value down to the candidate node `sid` that never
passes through a layout-replacing target: either the value is the candidate
node itself, or it is a `call_function`/`output` node with a
non-layout-replacing target one of whose args/kwargs continues the path, or
it is a list containing such a value. -/
inductive ReachesClean (sid : ℕ) : FxElem → Prop where
  | found (nid : ℕ) (nop : NodeOp) (lr : Bool) (args kwargs : List FxElem)
      (h : nid = sid) :
      ReachesClean sid (.node nid nop lr args kwargs)
  | via (nid : ℕ) (nop : NodeOp) (args kwargs : List FxElem) (a : FxElem)
      (hop : nop = NodeOp.call_function ∨ nop = NodeOp.output)
      (hmem : a ∈ args ∨ a ∈ kwargs)
      (ha : ReachesClean sid a) :
      ReachesClean sid (.node nid nop false args kwargs)
  | nest (xs : List FxElem) (a : FxElem) (hmem : a ∈ xs)
      (ha : ReachesClean sid a) :
      ReachesClean sid (.nested xs)

/-! Concrete inputs used by the closed witness and counterexample theorems. -/

/-- A concrete 2 × 3 rational matrix. -/
def wMat1 : Mat2 := ⟨2, 3, fun i j => (i : ℚ) + j⟩

/-- A concrete 3 × 2 rational matrix. -/
def wMat2 : Mat2 := ⟨3, 2, fun i j => (i : ℚ) * j + 1⟩

/-- A concrete rank-1 bias of length 2. -/
def wBias : BiasT := .vec 2 (fun j => (j : ℚ) + 5)

/-- A concrete batched 2 × 2 × 3 tensor. -/
def wBat1 : Mat3 := ⟨2, 2, 3, fun b i j => (b : ℚ) + i + j⟩

/-- A concrete batched 2 × 3 × 2 tensor. -/
def wBat2 : Mat3 := ⟨2, 3, 2, fun b i j => (b : ℚ) * i + j + 1⟩

/-- Config with the transpose strategy enabled. -/
def wCfgT : Config := ⟨true, false, false⟩

/-- Config with force_shape_pad enabled and the transpose strategy disabled. -/
def wCfgForce : Config := ⟨false, true, false⟩

/-- float32 descriptor of shape [4, 4] (all gemm dims aligned). -/
def wTd44 : TensorDesc :=
  ⟨[.concrete 4, .concrete 4], [.concrete 4, .concrete 1], .float32⟩

/-- float32 descriptor of shape [4, 5] (N = 5 needs padding). -/
def wTd45 : TensorDesc :=
  ⟨[.concrete 4, .concrete 5], [.concrete 5, .concrete 1], .float32⟩

/-- float32 descriptor of shape [5, 4] (M = 5 needs padding). -/
def wTd54 : TensorDesc :=
  ⟨[.concrete 5, .concrete 4], [.concrete 4, .concrete 1], .float32⟩

/-- float32 descriptor of a rank-1 tensor of shape [5]. -/
def wTd5 : TensorDesc := ⟨[.concrete 5], [.concrete 1], .float32⟩

/-- Concrete device characteristics. -/
def wDev : DeviceEnv := ⟨fun _ => .ok 100, .ok 10⟩

/-- A concrete benchmarking environment. -/
def wEnv : BenchEnv := ⟨wDev, .ok false, true, false, 2, 1⟩

/-- Candidate node of the witness graph: a call_function node whose target
(aten.mm) is itself in the layout-replacing allow-list. -/
def wCand : FxElem := .node 1 .call_function true [] []

/-- An intermediate pointwise node consuming the candidate. -/
def wMid : FxElem := .node 2 .call_function false [wCand] []

/-- The graph output node consuming the intermediate node. -/
def wOut : FxElem := .node 3 .output false [wMid] []

/-- The witness graph. -/
def wGraph : List FxElem := [wCand, wMid, wOut]

/-! Theorems. -/

/-- Claim C2: for every concrete dimension `d` and alignment `a > 0`,
`get_padded_length d a` is an amount `p` with `0 ≤ p < a` and
`(d + p) % a = 0`, with `p = 0` if `d` is already a multiple of `a`; for
every symbolic dimension, and for alignment 0, it returns 0. -/
theorem C2_get_padded_length :
    (∀ (d a : ℕ), 0 < a →
      get_padded_length (.concrete d) a < a ∧
      (d + get_padded_length (.concrete d) a) % a = 0 ∧
      (d % a = 0 → get_padded_length (.concrete d) a = 0)) ∧
    (∀ (h a : ℕ), get_padded_length (.symbolic h) a = 0) ∧
    (∀ (x : DimSize), get_padded_length x 0 = 0) := by
  refine ⟨?_, ?_, ?_⟩
  · intro d a ha
    simp only [get_padded_length]
    rw [if_neg (by omega)]
    by_cases hmod : d % a = 0
    · rw [if_pos hmod]
      exact ⟨ha, by simpa using hmod, fun _ => rfl⟩
    · rw [if_neg hmod]
      have h2 := Nat.div_add_mod d a
      have h3 : d % a < a := Nat.mod_lt _ ha
      set q := d / a with hq
      set r := d % a with hr
      set s := a * q with hs
      have hexp : (q + 1) * a = s + a := by rw [hs]; ring
      refine ⟨by omega, ?_, fun hcon => absurd hcon hmod⟩
      have h4 : d + ((q + 1) * a - d) = a * (q + 1) := by
        have : a * (q + 1) = s + a := by rw [hs]; ring
        omega
      rw [h4]
      exact Nat.mul_mod_right a (q + 1)
  · intro h a
    rfl
  · intro x
    cases x with
    | concrete n => simp [get_padded_length]
    | symbolic h => rfl

/-- Witness for C2 at d = 5, a = 4 (padding amount 3). -/
theorem C2_get_padded_length_witness :
    0 < 4 ∧
    (get_padded_length (.concrete 5) 4 < 4 ∧
      (5 + get_padded_length (.concrete 5) 4) % 4 = 0 ∧
      (5 % 4 = 0 → get_padded_length (.concrete 5) 4 = 0)) :=
  ⟨by decide, C2_get_padded_length.1 5 4 (by decide)⟩

/-- Claim C8: `is_mm_compute_bound` returns false when the denominator
`M*K + N*K + M*N` is zero (never dividing by zero); returns true when a
device-characteristic lookup raises (including the zero-bandwidth
`ZeroDivisionError`); and otherwise returns true exactly when the
arithmetic intensity exceeds `0.5 * (1000 * tflops) / gbps`. -/
theorem C8_is_mm_compute_bound (env : DeviceEnv) (M K N : ℕ) (dtype : DType) :
    (M * K + N * K + M * N = 0 → is_mm_compute_bound env M K N dtype = false) ∧
    (M * K + N * K + M * N ≠ 0 →
      ((∃ e, env.get_device_tflops dtype = .error e) ∨
        (∃ e, env.get_gpu_dram_gbps = .error e)) →
      is_mm_compute_bound env M K N dtype = true) ∧
    (∀ t g, M * K + N * K + M * N ≠ 0 →
      env.get_device_tflops dtype = .ok t → env.get_gpu_dram_gbps = .ok g →
      g ≠ 0 →
      (is_mm_compute_bound env M K N dtype = true ↔
        (M : ℚ) * N * K / ((M * K + N * K + M * N : ℕ) : ℚ) >
          1000 * t / g * (1 / 2))) := by
  refine ⟨?_, ?_, ?_⟩
  · intro h
    simp [is_mm_compute_bound, h]
  · intro h hE
    simp only [is_mm_compute_bound]
    rw [if_neg h]
    rcases h1 : env.get_device_tflops dtype with e1 | t
    · rcases h2 : env.get_gpu_dram_gbps with e2 | g
      · rfl
      · rfl
    · rcases h2 : env.get_gpu_dram_gbps with e2 | g
      · rfl
      · exfalso
        rcases hE with ⟨e, he⟩ | ⟨e, he⟩
        · rw [h1] at he; exact Except.noConfusion he
        · rw [h2] at he; exact Except.noConfusion he
  · intro t g h ht hg hgne
    simp [is_mm_compute_bound, h, ht, hg, hgne]

/-- Witness for C8 (third conjunct) at M = N = K = 64 with concrete device
characteristics. -/
theorem C8_is_mm_compute_bound_witness :
    (64 * 64 + 64 * 64 + 64 * 64 ≠ 0) ∧
    wDev.get_device_tflops .float32 = .ok 100 ∧
    wDev.get_gpu_dram_gbps = .ok 10 ∧
    (10 : ℚ) ≠ 0 ∧
    (is_mm_compute_bound wDev 64 64 64 .float32 = true ↔
      (64 : ℚ) * 64 * 64 / ((64 * 64 + 64 * 64 + 64 * 64 : ℕ) : ℚ) >
        1000 * 100 / 10 * (1 / 2)) :=
  ⟨by decide, rfl, rfl, by norm_num,
    (C8_is_mm_compute_bound wDev 64 64 64 .float32).2.2 100 10 (by decide) rfl rfl
      (by norm_num)⟩

/-- Claim C3: when the computed padding plan has all pad amounts zero and
does not choose the explicit transpose, `should_pad_bench` returns false —
even when `force_shape_pad` is set — without touching the cache or
benchmarking: the nothing-to-do check precedes the force-flag check. -/
theorem C3_force_pad_short_circuit (cfg : Config) (env : BenchEnv) (op : MMOp)
    (mat1 mat2 : TensorDesc) (input : Option TensorDesc) (cache : PadCache)
    (hforce : cfg.force_shape_pad = true)
    (hplan : bench_plan cfg op mat1 mat2 = some ⟨0, 0, 0, false⟩) :
    should_pad_bench cfg env op mat1 mat2 input cache = (false, cache, 0) := by
  cases op with
  | other => simp [bench_plan, bench_dims] at hplan
  | mm =>
    have hp : bench_plan_of_dims cfg mat1 mat2 (tdim mat1 0) (tdim mat1 1)
        (tdim mat2 1) = ⟨0, 0, 0, false⟩ := by
      simpa [bench_plan, bench_dims] using hplan
    simp [should_pad_bench, bench_dims, hp]
  | addmm =>
    have hp : bench_plan_of_dims cfg mat1 mat2 (tdim mat1 0) (tdim mat1 1)
        (tdim mat2 1) = ⟨0, 0, 0, false⟩ := by
      simpa [bench_plan, bench_dims] using hplan
    simp [should_pad_bench, bench_dims, hp]
  | bmm =>
    have hp : bench_plan_of_dims cfg mat1 mat2 (tdim mat1 1) (tdim mat1 2)
        (tdim mat2 2) = ⟨0, 0, 0, false⟩ := by
      simpa [bench_plan, bench_dims] using hplan
    simp [should_pad_bench, bench_dims, hp]

/-- Witness for C3: force_shape_pad is set, both operands are already
aligned 4 × 4 float32 matrices, and the decision is still false. -/
theorem C3_force_pad_short_circuit_witness :
    wCfgForce.force_shape_pad = true ∧
    bench_plan wCfgForce .mm wTd44 wTd44 = some ⟨0, 0, 0, false⟩ ∧
    should_pad_bench wCfgForce wEnv .mm wTd44 wTd44 none [] = (false, [], 0) :=
  ⟨rfl, by decide,
    C3_force_pad_short_circuit wCfgForce wEnv .mm wTd44 wTd44 none [] rfl (by decide)⟩

/-- Claim C4 counterexample: with the transpose strategy available,
M = 5 needs padding (amount 3) while N = 4 does not, yet the computed plan
has `explicit_transpose = false` (the code merely drops the M padding) —
refuting the claim that the transpose strategy is applied in both
directions. -/
theorem C4_counterexample :
    wCfgT.shape_pad_use_transpose = true ∧
    may_use_transpose wCfgT (tdim wTd54 0) (tdim wTd44 1) (tdim wTd54 1) = true ∧
    get_padded_length (tdim wTd54 0) (get_alignment_size wTd54) = 3 ∧
    get_padded_length (tdim wTd44 1) (get_alignment_size wTd44) = 0 ∧
    bench_plan wCfgT .mm wTd54 wTd44 = some ⟨0, 0, 0, false⟩ := by decide

/-- Claim C4 (amended): when the transpose strategy is available, if M needs
no padding but N does, the explicit transpose is chosen and both the M and N
pad amounts become zero; if N needs no padding but M does, the M padding is
merely dropped (set to zero) and the explicit transpose is NOT chosen.  In
both directions neither an M- nor an N-padding survives. -/
theorem C4_amended_transpose_selection (cfg : Config) (mat1 mat2 : TensorDesc)
    (hmay : may_use_transpose cfg (tdim mat1 0) (tdim mat2 1) (tdim mat1 1) = true) :
    (get_padded_length (tdim mat1 0) (get_alignment_size mat1) = 0 →
      get_padded_length (tdim mat2 1) (get_alignment_size mat2) ≠ 0 →
      bench_plan cfg .mm mat1 mat2 =
        some ⟨0, get_padded_length (tdim mat1 1) (get_alignment_size mat1), 0, true⟩) ∧
    (get_padded_length (tdim mat2 1) (get_alignment_size mat2) = 0 →
      get_padded_length (tdim mat1 0) (get_alignment_size mat1) ≠ 0 →
      bench_plan cfg .mm mat1 mat2 =
        some ⟨0, get_padded_length (tdim mat1 1) (get_alignment_size mat1), 0, false⟩) := by
  constructor
  · intro h0 hn
    simp [bench_plan, bench_dims, bench_plan_of_dims, hmay, h0, hn]
  · intro h0 hn
    simp [bench_plan, bench_dims, bench_plan_of_dims, hmay, h0, hn]

/-- Witness for the amended C4: M = 4 aligned, N = 5 unaligned, transpose
enabled. -/
theorem C4_amended_transpose_selection_witness :
    may_use_transpose wCfgT (tdim wTd44 0) (tdim wTd45 1) (tdim wTd44 1) = true ∧
    (get_padded_length (tdim wTd44 0) (get_alignment_size wTd44) = 0 →
      get_padded_length (tdim wTd45 1) (get_alignment_size wTd45) ≠ 0 →
      bench_plan wCfgT .mm wTd44 wTd45 =
        some ⟨0, get_padded_length (tdim wTd44 1) (get_alignment_size wTd44), 0, true⟩) :=
  ⟨by decide, (C4_amended_transpose_selection wCfgT wTd44 wTd45 (by decide)).1⟩

/-- Claim C9 counterexample: for an operator that is none of mm/bmm/addmm,
`should_pad_bench` returns the decision `false` without raising any error
and without benchmarking (`else: return False`, line 417-418) — refuting the
claim that this branch signals an internal invariant violation. -/
theorem C9_counterexample :
    should_pad_bench wCfgT wEnv .other wTd44 wTd44 none [] = (false, [], 0) := rfl

/-- Claim C9 (amended): for every operator argument that is not one of
aten.mm, aten.bmm, aten.addmm, `should_pad_bench` silently returns false,
leaving the cache untouched and running no benchmark. -/
theorem C9_amended_other_op_returns_false (cfg : Config) (env : BenchEnv)
    (mat1 mat2 : TensorDesc) (input : Option TensorDesc) (cache : PadCache) :
    should_pad_bench cfg env .other mat1 mat2 input cache = (false, cache, 0) := rfl

/-- Claim C10 counterexample: for addmm with a rank-1 bias, M aligned and
N unaligned under the transpose flag, `should_pad_bench` benchmarks the
explicit-transpose plan while `addmm_replace` substitutes the pad-N plan —
the benchmarked plan is not the substituted plan. -/
theorem C10_counterexample :
    bench_plan wCfgT .addmm wTd44 wTd45 = some ⟨0, 0, 0, true⟩ ∧
    addmm_replace_plan wCfgT wTd5 wTd44 wTd45 = ⟨0, 0, 3, false⟩ := by decide

/-- Claim C10 (amended): the plan benchmarked by `should_pad_bench` equals
the plan substituted by the replacement function for mm and bmm always, and
for addmm whenever the bias has rank at least 2; with a rank-1 bias the two
diverge exactly when M needs no padding, N does, and transpose is
available. -/
theorem C10_amended_plan_agreement :
    (∀ (cfg : Config) (mat1 mat2 : TensorDesc),
      bench_plan cfg .mm mat1 mat2 = some (mm_replace_plan cfg mat1 mat2)) ∧
    (∀ (cfg : Config) (mat1 mat2 : TensorDesc),
      bench_plan cfg .bmm mat1 mat2 = some (bmm_replace_plan cfg mat1 mat2)) ∧
    (∀ (cfg : Config) (input mat1 mat2 : TensorDesc), 2 ≤ input.shape.length →
      bench_plan cfg .addmm mat1 mat2 =
        some (addmm_replace_plan cfg input mat1 mat2)) := by
  refine ⟨?_, ?_, ?_⟩
  · intro cfg mat1 mat2
    by_cases hmay : may_use_transpose cfg (tdim mat1 0) (tdim mat2 1) (tdim mat1 1) = true <;>
      by_cases hm : get_padded_length (tdim mat1 0) (get_alignment_size mat1) = 0 <;>
        by_cases hn : get_padded_length (tdim mat2 1) (get_alignment_size mat2) = 0 <;>
          simp [bench_plan, bench_dims, bench_plan_of_dims, mm_replace_plan, hmay, hm, hn]
  · intro cfg mat1 mat2
    by_cases hmay : may_use_transpose cfg (tdim mat1 1) (tdim mat2 2) (tdim mat1 2) = true <;>
      by_cases hm : get_padded_length (tdim mat1 1) (get_alignment_size mat1) = 0 <;>
        by_cases hn : get_padded_length (tdim mat2 2) (get_alignment_size mat2) = 0 <;>
          simp [bench_plan, bench_dims, bench_plan_of_dims, bmm_replace_plan, hmay, hm, hn]
  · intro cfg input mat1 mat2 hlen
    by_cases hmay : may_use_transpose cfg (tdim mat1 0) (tdim mat2 1) (tdim mat1 1) = true <;>
      by_cases hm : get_padded_length (tdim mat1 0) (get_alignment_size mat1) = 0 <;>
        by_cases hn : get_padded_length (tdim mat2 1) (get_alignment_size mat2) = 0 <;>
          simp [bench_plan, bench_dims, bench_plan_of_dims, addmm_replace_plan, hmay, hm,
            hn, hlen]

/-- Witness for the amended C10: addmm with a rank-2 bias. -/
theorem C10_amended_plan_agreement_witness :
    2 ≤ wTd44.shape.length ∧
    bench_plan wCfgT .addmm wTd44 wTd45 =
      some (addmm_replace_plan wCfgT wTd44 wTd44 wTd45) :=
  ⟨by decide, C10_amended_plan_agreement.2.2 wCfgT wTd44 wTd44 wTd45 (by decide)⟩

/-- Behavioural case split for `should_pad_bench`: a call either returns
early with a cache-independent decision and no benchmarking, or it reaches
the cache stage, where a hit returns the cached decision unchanged and a
miss benchmarks once and stores the decision under the key. -/
theorem should_pad_bench_cases_core (cfg : Config) (env : BenchEnv) (op : MMOp)
    (mat1 mat2 : TensorDesc) (input : Option TensorDesc) (m k n : DimSize)
    (hbd : bench_dims op mat1 mat2 = some (m, k, n)) :
    (∃ b, ∀ cache, should_pad_bench cfg env op mat1 mat2 input cache = (b, cache, 0)) ∨
    ((∀ cache v,
        cache_lookup cache (should_pad_bench_key cfg op mat1 mat2 input) = some v →
        should_pad_bench cfg env op mat1 mat2 input cache = (v, cache, 0)) ∧
      (∀ cache,
        cache_lookup cache (should_pad_bench_key cfg op mat1 mat2 input) = none →
        should_pad_bench cfg env op mat1 mat2 input cache =
          (env.skip_do_bench_times || decide (env.ori_time > env.pad_time * (11 / 10)),
            (should_pad_bench_key cfg op mat1 mat2 input,
              env.skip_do_bench_times ||
                decide (env.ori_time > env.pad_time * (11 / 10))) :: cache,
            1))) := by
  by_cases hzero : (bench_plan_of_dims cfg mat1 mat2 m k n).m_pad = 0 ∧
      (bench_plan_of_dims cfg mat1 mat2 m k n).k_pad = 0 ∧
      (bench_plan_of_dims cfg mat1 mat2 m k n).n_pad = 0 ∧
      (bench_plan_of_dims cfg mat1 mat2 m k n).explicit_transpose = false
  · exact Or.inl ⟨false, fun cache => by simp [should_pad_bench, hbd, hzero]⟩
  by_cases hforce : cfg.force_shape_pad
  · exact Or.inl ⟨true, fun cache => by simp [should_pad_bench, hbd, hzero, hforce]⟩
  rcases hcut : env.cutlass_probe with e | b
  · by_cases htr : env.has_triton = false
    · exact Or.inl ⟨false, fun cache => by
        simp [should_pad_bench, hbd, hzero, hforce, hcut, htr]⟩
    by_cases hcb : is_mm_compute_bound env.dev m.val k.val n.val mat1.dtype = false
    · exact Or.inl ⟨false, fun cache => by
        simp [should_pad_bench, hbd, hzero, hforce, hcut, htr, hcb]⟩
    refine Or.inr ⟨fun cache v hlk => ?_, fun cache hlk => ?_⟩
    · simp [should_pad_bench, hbd, hzero, hforce, hcut, htr, hcb, hlk]
    · simp [should_pad_bench, hbd, hzero, hforce, hcut, htr, hcb, hlk]
  · cases b with
    | true =>
      exact Or.inl ⟨true, fun cache => by simp [should_pad_bench, hbd, hzero, hforce, hcut]⟩
    | false =>
      by_cases htr : env.has_triton = false
      · exact Or.inl ⟨false, fun cache => by
          simp [should_pad_bench, hbd, hzero, hforce, hcut, htr]⟩
      by_cases hcb : is_mm_compute_bound env.dev m.val k.val n.val mat1.dtype = false
      · exact Or.inl ⟨false, fun cache => by
          simp [should_pad_bench, hbd, hzero, hforce, hcut, htr, hcb]⟩
      refine Or.inr ⟨fun cache v hlk => ?_, fun cache hlk => ?_⟩
      · simp [should_pad_bench, hbd, hzero, hforce, hcut, htr, hcb, hlk]
      · simp [should_pad_bench, hbd, hzero, hforce, hcut, htr, hcb, hlk]

/-- The case split of `should_pad_bench_cases_core`, for every operator. -/
theorem should_pad_bench_cases (cfg : Config) (env : BenchEnv) (op : MMOp)
    (mat1 mat2 : TensorDesc) (input : Option TensorDesc) :
    (∃ b, ∀ cache, should_pad_bench cfg env op mat1 mat2 input cache = (b, cache, 0)) ∨
    ((∀ cache v,
        cache_lookup cache (should_pad_bench_key cfg op mat1 mat2 input) = some v →
        should_pad_bench cfg env op mat1 mat2 input cache = (v, cache, 0)) ∧
      (∀ cache,
        cache_lookup cache (should_pad_bench_key cfg op mat1 mat2 input) = none →
        should_pad_bench cfg env op mat1 mat2 input cache =
          (env.skip_do_bench_times || decide (env.ori_time > env.pad_time * (11 / 10)),
            (should_pad_bench_key cfg op mat1 mat2 input,
              env.skip_do_bench_times ||
                decide (env.ori_time > env.pad_time * (11 / 10))) :: cache,
            1))) := by
  cases op with
  | mm => exact should_pad_bench_cases_core cfg env .mm mat1 mat2 input _ _ _ rfl
  | addmm => exact should_pad_bench_cases_core cfg env .addmm mat1 mat2 input _ _ _ rfl
  | bmm => exact should_pad_bench_cases_core cfg env .bmm mat1 mat2 input _ _ _ rfl
  | other => exact Or.inl ⟨false, fun cache => rfl⟩

/-- Claim C6: two consecutive calls to `should_pad_bench` with identical
inputs (hence identical cache keys) execute at most one empirical
benchmarking pass in total, and the second call returns the same boolean as
the first without benchmarking. -/
theorem C6_cache_correct (cfg : Config) (env : BenchEnv) (op : MMOp)
    (mat1 mat2 : TensorDesc) (input : Option TensorDesc) (cache : PadCache) :
    (should_pad_bench cfg env op mat1 mat2 input
        (should_pad_bench cfg env op mat1 mat2 input cache).2.1).1 =
      (should_pad_bench cfg env op mat1 mat2 input cache).1 ∧
    (should_pad_bench cfg env op mat1 mat2 input
        (should_pad_bench cfg env op mat1 mat2 input cache).2.1).2.2 = 0 ∧
    (should_pad_bench cfg env op mat1 mat2 input cache).2.2 +
      (should_pad_bench cfg env op mat1 mat2 input
        (should_pad_bench cfg env op mat1 mat2 input cache).2.1).2.2 ≤ 1 := by
  rcases should_pad_bench_cases cfg env op mat1 mat2 input with ⟨b, hb⟩ | ⟨hhit, hmiss⟩
  · simp [hb]
  · rcases hlk : cache_lookup cache (should_pad_bench_key cfg op mat1 mat2 input)
        with _ | v
    · have h1 := hmiss cache hlk
      have h2 := hhit
        ((should_pad_bench_key cfg op mat1 mat2 input,
          env.skip_do_bench_times ||
            decide (env.ori_time > env.pad_time * (11 / 10))) :: cache)
        (env.skip_do_bench_times || decide (env.ori_time > env.pad_time * (11 / 10)))
        (by simp [cache_lookup])
      simp [h1, h2]
    · have h1 := hhit cache v hlk
      simp [h1]

/-- Unfolding of `recursively_search` at depth 0: the depth bound raises. -/
theorem recursively_search_zero (sid : ℕ) (a : FxElem) :
    recursively_search sid 0 a = .error () := by
  rw [recursively_search.eq_def]
  simp

/-- Unfolding of `recursively_search` at a positive depth on a node. -/
theorem recursively_search_node (sid d : ℕ) (nid : ℕ) (nop : NodeOp) (lr : Bool)
    (args kwargs : List FxElem) :
    recursively_search sid (d + 1) (.node nid nop lr args kwargs) =
      (if nid = sid then .ok true
      else
        match nop with
        | .call_method => .error ()
        | .call_module => .error ()
        | .placeholder => .ok false
        | .get_attr => .ok false
        | .call_function | .output =>
          if lr then .ok false
          else
            match search_any sid d args with
            | .error e => .error e
            | .ok true => .ok true
            | .ok false => search_any sid d kwargs) := by
  rw [recursively_search.eq_def]
  simp

/-- Unfolding of `recursively_search` at a positive depth on a list value. -/
theorem recursively_search_nested (sid d : ℕ) (xs : List FxElem) :
    recursively_search sid (d + 1) (.nested xs) = search_any sid d xs := by
  rw [recursively_search.eq_def]
  simp

/-- Unfolding of `search_any` on a cons cell. -/
theorem search_any_cons (sid d : ℕ) (x : FxElem) (rest : List FxElem) :
    search_any sid d (x :: rest) =
      match recursively_search sid d x with
      | .error e => .error e
      | .ok true => .ok true
      | .ok false => search_any sid d rest := by
  rw [search_any.eq_def]

/-- If some member of `xs` can only be searched to `ok true`, then
`search_any` over `xs` cannot return `ok false`. -/
theorem search_any_mem_ok (sid d : ℕ) (xs : List FxElem) (a : FxElem)
    (hmem : a ∈ xs)
    (hf : ∀ bb, recursively_search sid d a = .ok bb → bb = true) :
    ∀ b, search_any sid d xs = .ok b → b = true := by
  induction xs with
  | nil => cases hmem
  | cons x rest ih =>
    intro b hb
    rw [search_any_cons] at hb
    rcases hx : recursively_search sid d x with e | bx
    · rw [hx] at hb
      exact Except.noConfusion hb
    · cases bx with
      | true =>
        rw [hx] at hb
        have hb2 : (Except.ok true : Except Unit Bool) = .ok b := hb
        cases hb2
        rfl
      | false =>
        rw [hx] at hb
        have hb2 : search_any sid d rest = .ok b := hb
        rcases List.mem_cons.mp hmem with heq | hm
        · subst heq
          have := hf false hx
          exact absurd this (by simp)
        · exact ih hm b hb2

/-- Along a clean dataflow path (`ReachesClean`) the traversal can never
answer `ok false`: whenever it returns normally, it classifies the value as
reaching the candidate. -/
theorem search_reaches (sid : ℕ) (a : FxElem) (h : ReachesClean sid a) :
    ∀ d b, recursively_search sid d a = .ok b → b = true := by
  induction h with
  | found nid nop lr args kwargs hid =>
    intro d b hb
    cases d with
    | zero =>
      rw [recursively_search_zero] at hb
      exact Except.noConfusion hb
    | succ d0 =>
      rw [recursively_search_node, if_pos hid] at hb
      have hb2 : (Except.ok true : Except Unit Bool) = .ok b := hb
      cases hb2
      rfl
  | via nid nop args kwargs a hop hmem ha ih =>
    intro d b hb
    cases d with
    | zero =>
      rw [recursively_search_zero] at hb
      exact Except.noConfusion hb
    | succ d0 =>
      rw [recursively_search_node] at hb
      by_cases hid : nid = sid
      · rw [if_pos hid] at hb
        have hb2 : (Except.ok true : Except Unit Bool) = .ok b := hb
        cases hb2
        rfl
      · rw [if_neg hid] at hb
        rcases hop with h1 | h1 <;> subst h1 <;>
        · rcases hargs : search_any sid d0 args with e | ba
          · rw [hargs] at hb
            exact Except.noConfusion hb
          · cases ba with
            | true =>
              rw [hargs] at hb
              have hb2 : (Except.ok true : Except Unit Bool) = .ok b := hb
              cases hb2
              rfl
            | false =>
              rw [hargs] at hb
              have hb2 : search_any sid d0 kwargs = .ok b := hb
              rcases hmem with hm | hm
              · have := search_any_mem_ok sid d0 args a hm
                  (fun bb hbb => ih d0 bb hbb) false hargs
                exact absurd this (by simp)
              · exact search_any_mem_ok sid d0 kwargs a hm
                  (fun bb hbb => ih d0 bb hbb) b hb2
  | nest xs a hmem ha ih =>
    intro d b hb
    cases d with
    | zero =>
      rw [recursively_search_zero] at hb
      exact Except.noConfusion hb
    | succ d0 =>
      rw [recursively_search_nested] at hb
      exact search_any_mem_ok sid d0 xs a hmem (fun bb hbb => ih d0 bb hbb) b hb

/-- Claim C7: for every graph in which the candidate node is reached from a
graph output node without passing through any layout-replacing operator,
`result_layout_affects_graph_output` classifies the candidate as affected:
whenever the traversal returns normally, it returns true. -/
theorem C7_conservative_layout (graph : List FxElem) (sid : ℕ) (n : FxElem)
    (b : Bool) (hout : n ∈ graph) (hop : n.is_output = true)
    (hreach : ReachesClean sid n)
    (hok : result_layout_affects_graph_output graph sid = .ok b) :
    b = true := by
  have hmemf : n ∈ graph.filter FxElem.is_output := List.mem_filter.mpr ⟨hout, hop⟩
  have hne : ¬((graph.filter FxElem.is_output).length = 0) := by
    intro hlen
    rw [List.length_eq_zero] at hlen
    rw [hlen] at hmemf
    cases hmemf
  simp only [result_layout_affects_graph_output] at hok
  rw [if_neg hne] at hok
  exact search_any_mem_ok sid 100000 _ n hmemf
    (fun bb hbb => search_reaches sid n hreach 100000 bb hbb) b hok

/-- Witness for C7: a three-node graph output ← pointwise-op ← candidate,
where the candidate's own target is layout-replacing (aten.mm is in the
allow-list) but is reached before its target is examined. -/
theorem C7_conservative_layout_witness :
    wOut ∈ wGraph ∧ wOut.is_output = true ∧ ReachesClean 1 wOut ∧
    result_layout_affects_graph_output wGraph 1 = .ok true ∧ true = true := by
  have r1 : ReachesClean 1 wCand := ReachesClean.found 1 .call_function true [] [] rfl
  have r2 : ReachesClean 1 wMid :=
    ReachesClean.via 2 .call_function [wCand] [] wCand (Or.inl rfl)
      (Or.inl (List.Mem.head _)) r1
  have r3 : ReachesClean 1 wOut :=
    ReachesClean.via 3 .output [wMid] [] wMid (Or.inr rfl)
      (Or.inl (List.Mem.head _)) r2
  have hmem : wOut ∈ wGraph := List.Mem.tail _ (List.Mem.tail _ (List.Mem.head _))
  exact ⟨hmem, rfl, r3, rfl,
    C7_conservative_layout wGraph 1 wOut true hmem rfl r3 rfl⟩

/-- Specification of the conditional padding branches of the transforms
(`if pad needed then constant_pad_nd else original`): the result always has
the padded bounds, and within those bounds its entries are the zero-extended
original entries. -/
theorem pad_branch_spec (A : Mat2) (rp cp : ℕ) (c : Prop) [Decidable c]
    (hc : ¬c → rp = 0 ∧ cp = 0) :
    (if c then constant_pad_nd2 A rp cp else A).rows = A.rows + rp ∧
    (if c then constant_pad_nd2 A rp cp else A).cols = A.cols + cp ∧
    ∀ i j, i < A.rows + rp → j < A.cols + cp →
      (if c then constant_pad_nd2 A rp cp else A).entry i j =
        if i < A.rows ∧ j < A.cols then A.entry i j else 0 := by
  by_cases h : c
  · rw [if_pos h]
    exact ⟨rfl, rfl, fun i j _ _ => rfl⟩
  · obtain ⟨h1, h2⟩ := hc h
    subst h1
    subst h2
    rw [if_neg h]
    refine ⟨(Nat.add_zero _).symm, (Nat.add_zero _).symm, ?_⟩
    intro i j hi hj
    rw [if_pos ⟨by omega, by omega⟩]

/-- The contraction over a zero-padded K range equals the original
contraction. -/
theorem padded_mm_sum (A B : Mat2) (kp : ℕ) (hAB : A.cols = B.rows) (i j : ℕ)
    (hi : i < A.rows) (hj : j < B.cols) (pA pB : ℕ → ℕ → ℚ)
    (hpA : ∀ l, l < A.cols + kp →
      pA i l = if i < A.rows ∧ l < A.cols then A.entry i l else 0)
    (hpB : ∀ l, l < B.rows + kp →
      pB l j = if l < B.rows ∧ j < B.cols then B.entry l j else 0) :
    ∑ l ∈ Finset.range (A.cols + kp), pA i l * pB l j = (mm2 A B).entry i j := by
  have hsub : Finset.range A.cols ⊆ Finset.range (A.cols + kp) :=
    Finset.range_subset.mpr (Nat.le_add_right _ _)
  have hzero : ∀ l ∈ Finset.range (A.cols + kp), l ∉ Finset.range A.cols →
      pA i l * pB l j = 0 := by
    intro l hl hnl
    rw [Finset.mem_range] at hl
    rw [Finset.mem_range] at hnl
    push_neg at hnl
    rw [hpA l hl, if_neg (by omega)]
    ring
  rw [← Finset.sum_subset hsub hzero]
  show _ = ∑ l ∈ Finset.range A.cols, A.entry i l * B.entry l j
  apply Finset.sum_congr rfl
  intro l hl
  rw [Finset.mem_range] at hl
  rw [hpA l (by omega), hpB l (by omega), if_pos ⟨hi, hl⟩, if_pos ⟨by omega, hj⟩]

/-- For zero-extended operands, both the direct padded product and the
explicitly transposed padded product agree with the unpadded product on all
in-range positions. -/
theorem padded_product_core (A B P1 P2 : Mat2) (mp kp np : ℕ) (hAB : A.cols = B.rows)
    (h1r : P1.rows = A.rows + mp) (h1c : P1.cols = A.cols + kp)
    (h1e : ∀ i j, i < A.rows + mp → j < A.cols + kp →
      P1.entry i j = if i < A.rows ∧ j < A.cols then A.entry i j else 0)
    (h2r : P2.rows = B.rows + kp) (h2c : P2.cols = B.cols + np)
    (h2e : ∀ i j, i < B.rows + kp → j < B.cols + np →
      P2.entry i j = if i < B.rows ∧ j < B.cols then B.entry i j else 0) :
    (∀ i j, i < A.rows → j < B.cols →
      (mm2 P1 P2).entry i j = (mm2 A B).entry i j) ∧
    (∀ i j, i < A.rows → j < B.cols →
      (mm2 P2.transpose P1.transpose).transpose.entry i j = (mm2 A B).entry i j) := by
  constructor
  · intro i j hi hj
    show (∑ l ∈ Finset.range P1.cols, P1.entry i l * P2.entry l j) = (mm2 A B).entry i j
    rw [h1c]
    refine padded_mm_sum A B kp hAB i j hi hj P1.entry P2.entry ?_ ?_
    · intro l hl
      exact h1e i l (by omega) hl
    · intro l hl
      exact h2e l j hl (by omega)
  · intro i j hi hj
    show (∑ l ∈ Finset.range P2.rows, P2.entry l j * P1.entry i l) = (mm2 A B).entry i j
    rw [h2r, ← hAB]
    rw [show (∑ l ∈ Finset.range (A.cols + kp), P2.entry l j * P1.entry i l)
        = ∑ l ∈ Finset.range (A.cols + kp), P1.entry i l * P2.entry l j from
      Finset.sum_congr rfl (fun l _ => mul_comm _ _)]
    refine padded_mm_sum A B kp hAB i j hi hj P1.entry P2.entry ?_ ?_
    · intro l hl
      exact h1e i l (by omega) hl
    · intro l hl
      exact h2e l j hl (by omega)

/-- The final slicing pipeline of the transforms restores the original
bounds and leaves entries untouched. -/
theorem slice2_spec (res : Mat2) (mp np rr cc : ℕ)
    (hr : res.rows = rr + mp) (hc : res.cols = cc + np) :
    (if np ≠ 0 then slice_cols (if mp ≠ 0 then slice_rows res mp else res) np
      else (if mp ≠ 0 then slice_rows res mp else res)).rows = rr ∧
    (if np ≠ 0 then slice_cols (if mp ≠ 0 then slice_rows res mp else res) np
      else (if mp ≠ 0 then slice_rows res mp else res)).cols = cc ∧
    (if np ≠ 0 then slice_cols (if mp ≠ 0 then slice_rows res mp else res) np
      else (if mp ≠ 0 then slice_rows res mp else res)).entry = res.entry := by
  by_cases hm : mp ≠ 0 <;> by_cases hn : np ≠ 0 <;>
    refine ⟨?_, ?_, ?_⟩ <;> simp [hm, hn, slice_rows, slice_cols] <;> omega

/-- Round trip of `pad_mm`, stated over the padded operands abstractly. -/
theorem pad_pipeline_spec (P1 P2 A B : Mat2) (mp kp np : ℕ) (et : Bool)
    (hAB : A.cols = B.rows)
    (h1r : P1.rows = A.rows + mp) (h1c : P1.cols = A.cols + kp)
    (h1e : ∀ i j, i < A.rows + mp → j < A.cols + kp →
      P1.entry i j = if i < A.rows ∧ j < A.cols then A.entry i j else 0)
    (h2r : P2.rows = B.rows + kp) (h2c : P2.cols = B.cols + np)
    (h2e : ∀ i j, i < B.rows + kp → j < B.cols + np →
      P2.entry i j = if i < B.rows ∧ j < B.cols then B.entry i j else 0) :
    (if np ≠ 0 then
        slice_cols (if mp ≠ 0 then
            slice_rows (if et then (mm2 P2.transpose P1.transpose).transpose
              else mm2 P1 P2) mp
          else (if et then (mm2 P2.transpose P1.transpose).transpose
            else mm2 P1 P2)) np
      else (if mp ≠ 0 then
          slice_rows (if et then (mm2 P2.transpose P1.transpose).transpose
            else mm2 P1 P2) mp
        else (if et then (mm2 P2.transpose P1.transpose).transpose
          else mm2 P1 P2))).rows = A.rows ∧
    (if np ≠ 0 then
        slice_cols (if mp ≠ 0 then
            slice_rows (if et then (mm2 P2.transpose P1.transpose).transpose
              else mm2 P1 P2) mp
          else (if et then (mm2 P2.transpose P1.transpose).transpose
            else mm2 P1 P2)) np
      else (if mp ≠ 0 then
          slice_rows (if et then (mm2 P2.transpose P1.transpose).transpose
            else mm2 P1 P2) mp
        else (if et then (mm2 P2.transpose P1.transpose).transpose
          else mm2 P1 P2))).cols = B.cols ∧
    ∀ i j, i < A.rows → j < B.cols →
      (if np ≠ 0 then
          slice_cols (if mp ≠ 0 then
              slice_rows (if et then (mm2 P2.transpose P1.transpose).transpose
                else mm2 P1 P2) mp
            else (if et then (mm2 P2.transpose P1.transpose).transpose
              else mm2 P1 P2)) np
        else (if mp ≠ 0 then
            slice_rows (if et then (mm2 P2.transpose P1.transpose).transpose
              else mm2 P1 P2) mp
          else (if et then (mm2 P2.transpose P1.transpose).transpose
            else mm2 P1 P2))).entry i j = (mm2 A B).entry i j := by
  have hcore := padded_product_core A B P1 P2 mp kp np hAB h1r h1c h1e h2r h2c h2e
  have hres_r : (if et then (mm2 P2.transpose P1.transpose).transpose
      else mm2 P1 P2).rows = A.rows + mp := by
    cases et <;> simp [mm2, Mat2.transpose, h1r]
  have hres_c : (if et then (mm2 P2.transpose P1.transpose).transpose
      else mm2 P1 P2).cols = B.cols + np := by
    cases et <;> simp [mm2, Mat2.transpose, h2c]
  have hres_e : ∀ i j, i < A.rows → j < B.cols →
      (if et then (mm2 P2.transpose P1.transpose).transpose
        else mm2 P1 P2).entry i j = (mm2 A B).entry i j := by
    cases et
    · exact hcore.1
    · exact hcore.2
  obtain ⟨hsr, hsc, hse⟩ := slice2_spec
    (if et then (mm2 P2.transpose P1.transpose).transpose else mm2 P1 P2)
    mp np A.rows B.cols hres_r hres_c
  refine ⟨hsr, hsc, fun i j hi hj => ?_⟩
  rw [hse]
  exact hres_e i j hi hj

/-- Round trip of `pad_mm` against `aten.mm`. -/
theorem pad_mm_roundtrip (A B : Mat2) (mp kp np : ℕ) (et : Bool)
    (hAB : A.cols = B.rows) :
    (pad_mm A B mp kp np et).rows = (mm2 A B).rows ∧
    (pad_mm A B mp kp np et).cols = (mm2 A B).cols ∧
    ∀ i j, i < A.rows → j < B.cols →
      (pad_mm A B mp kp np et).entry i j = (mm2 A B).entry i j := by
  obtain ⟨h1r, h1c, h1e⟩ := pad_branch_spec A mp kp (kp ≠ 0 ∨ mp ≠ 0)
    (fun h => by push_neg at h; exact ⟨h.2, h.1⟩)
  obtain ⟨h2r, h2c, h2e⟩ := pad_branch_spec B kp np (kp ≠ 0 ∨ np ≠ 0)
    (fun h => by push_neg at h; exact ⟨h.1, h.2⟩)
  exact pad_pipeline_spec
    (if kp ≠ 0 ∨ mp ≠ 0 then constant_pad_nd2 A mp kp else A)
    (if kp ≠ 0 ∨ np ≠ 0 then constant_pad_nd2 B kp np else B)
    A B mp kp np et hAB h1r h1c h1e h2r h2c h2e

/-- 3-D version of `pad_branch_spec`: the batch dimension is untouched. -/
theorem pad_branch_spec3 (A : Mat3) (rp cp : ℕ) (c : Prop) [Decidable c]
    (hc : ¬c → rp = 0 ∧ cp = 0) :
    (if c then constant_pad_nd3 A rp cp else A).batch = A.batch ∧
    (if c then constant_pad_nd3 A rp cp else A).rows = A.rows + rp ∧
    (if c then constant_pad_nd3 A rp cp else A).cols = A.cols + cp ∧
    ∀ b i j, i < A.rows + rp → j < A.cols + cp →
      (if c then constant_pad_nd3 A rp cp else A).entry b i j =
        if i < A.rows ∧ j < A.cols then A.entry b i j else 0 := by
  by_cases h : c
  · rw [if_pos h]
    exact ⟨rfl, rfl, rfl, fun b i j _ _ => rfl⟩
  · obtain ⟨h1, h2⟩ := hc h
    subst h1
    subst h2
    rw [if_neg h]
    refine ⟨rfl, (Nat.add_zero _).symm, (Nat.add_zero _).symm, ?_⟩
    intro b i j hi hj
    rw [if_pos ⟨by omega, by omega⟩]

/-- 3-D version of `padded_mm_sum`. -/
theorem padded_bmm_sum (A B : Mat3) (kp : ℕ) (hAB : A.cols = B.rows) (bi i j : ℕ)
    (hi : i < A.rows) (hj : j < B.cols) (pA pB : ℕ → ℕ → ℕ → ℚ)
    (hpA : ∀ l, l < A.cols + kp →
      pA bi i l = if i < A.rows ∧ l < A.cols then A.entry bi i l else 0)
    (hpB : ∀ l, l < B.rows + kp →
      pB bi l j = if l < B.rows ∧ j < B.cols then B.entry bi l j else 0) :
    ∑ l ∈ Finset.range (A.cols + kp), pA bi i l * pB bi l j =
      (bmm3 A B).entry bi i j := by
  have hsub : Finset.range A.cols ⊆ Finset.range (A.cols + kp) :=
    Finset.range_subset.mpr (Nat.le_add_right _ _)
  have hzero : ∀ l ∈ Finset.range (A.cols + kp), l ∉ Finset.range A.cols →
      pA bi i l * pB bi l j = 0 := by
    intro l hl hnl
    rw [Finset.mem_range] at hl
    rw [Finset.mem_range] at hnl
    push_neg at hnl
    rw [hpA l hl, if_neg (by omega)]
    ring
  rw [← Finset.sum_subset hsub hzero]
  show _ = ∑ l ∈ Finset.range A.cols, A.entry bi i l * B.entry bi l j
  apply Finset.sum_congr rfl
  intro l hl
  rw [Finset.mem_range] at hl
  rw [hpA l (by omega), hpB l (by omega), if_pos ⟨hi, hl⟩, if_pos ⟨by omega, hj⟩]

/-- 3-D version of `padded_product_core`. -/
theorem padded_product_core3 (A B P1 P2 : Mat3) (mp kp np : ℕ) (hAB : A.cols = B.rows)
    (h1r : P1.rows = A.rows + mp) (h1c : P1.cols = A.cols + kp)
    (h1e : ∀ b i j, i < A.rows + mp → j < A.cols + kp →
      P1.entry b i j = if i < A.rows ∧ j < A.cols then A.entry b i j else 0)
    (h2r : P2.rows = B.rows + kp) (h2c : P2.cols = B.cols + np)
    (h2e : ∀ b i j, i < B.rows + kp → j < B.cols + np →
      P2.entry b i j = if i < B.rows ∧ j < B.cols then B.entry b i j else 0) :
    (∀ bi i j, i < A.rows → j < B.cols →
      (bmm3 P1 P2).entry bi i j = (bmm3 A B).entry bi i j) ∧
    (∀ bi i j, i < A.rows → j < B.cols →
      (bmm3 P2.transpose P1.transpose).transpose.entry bi i j =
        (bmm3 A B).entry bi i j) := by
  constructor
  · intro bi i j hi hj
    show (∑ l ∈ Finset.range P1.cols, P1.entry bi i l * P2.entry bi l j) =
      (bmm3 A B).entry bi i j
    rw [h1c]
    refine padded_bmm_sum A B kp hAB bi i j hi hj P1.entry P2.entry ?_ ?_
    · intro l hl
      exact h1e bi i l (by omega) hl
    · intro l hl
      exact h2e bi l j hl (by omega)
  · intro bi i j hi hj
    show (∑ l ∈ Finset.range P2.rows, P2.entry bi l j * P1.entry bi i l) =
      (bmm3 A B).entry bi i j
    rw [h2r, ← hAB]
    rw [show (∑ l ∈ Finset.range (A.cols + kp), P2.entry bi l j * P1.entry bi i l)
        = ∑ l ∈ Finset.range (A.cols + kp), P1.entry bi i l * P2.entry bi l j from
      Finset.sum_congr rfl (fun l _ => mul_comm _ _)]
    refine padded_bmm_sum A B kp hAB bi i j hi hj P1.entry P2.entry ?_ ?_
    · intro l hl
      exact h1e bi i l (by omega) hl
    · intro l hl
      exact h2e bi l j hl (by omega)

/-- 3-D version of `slice2_spec`. -/
theorem slice3_spec (res : Mat3) (mp np rr cc : ℕ)
    (hr : res.rows = rr + mp) (hc : res.cols = cc + np) :
    (if np ≠ 0 then slice_cols3 (if mp ≠ 0 then slice_rows3 res mp else res) np
      else (if mp ≠ 0 then slice_rows3 res mp else res)).batch = res.batch ∧
    (if np ≠ 0 then slice_cols3 (if mp ≠ 0 then slice_rows3 res mp else res) np
      else (if mp ≠ 0 then slice_rows3 res mp else res)).rows = rr ∧
    (if np ≠ 0 then slice_cols3 (if mp ≠ 0 then slice_rows3 res mp else res) np
      else (if mp ≠ 0 then slice_rows3 res mp else res)).cols = cc ∧
    (if np ≠ 0 then slice_cols3 (if mp ≠ 0 then slice_rows3 res mp else res) np
      else (if mp ≠ 0 then slice_rows3 res mp else res)).entry = res.entry := by
  by_cases hm : mp ≠ 0 <;> by_cases hn : np ≠ 0 <;>
    refine ⟨?_, ?_, ?_, ?_⟩ <;> simp [hm, hn, slice_rows3, slice_cols3] <;> omega

/-- Round trip of `pad_bmm`, stated over the padded operands abstractly. -/
theorem pad_pipeline_spec3 (P1 P2 A B : Mat3) (mp kp np : ℕ) (et : Bool)
    (hAB : A.cols = B.rows) (hbatch : A.batch = B.batch)
    (h1b : P1.batch = A.batch) (h1r : P1.rows = A.rows + mp)
    (h1c : P1.cols = A.cols + kp)
    (h1e : ∀ b i j, i < A.rows + mp → j < A.cols + kp →
      P1.entry b i j = if i < A.rows ∧ j < A.cols then A.entry b i j else 0)
    (h2b : P2.batch = B.batch) (h2r : P2.rows = B.rows + kp)
    (h2c : P2.cols = B.cols + np)
    (h2e : ∀ b i j, i < B.rows + kp → j < B.cols + np →
      P2.entry b i j = if i < B.rows ∧ j < B.cols then B.entry b i j else 0) :
    (if np ≠ 0 then
        slice_cols3 (if mp ≠ 0 then
            slice_rows3 (if et then (bmm3 P2.transpose P1.transpose).transpose
              else bmm3 P1 P2) mp
          else (if et then (bmm3 P2.transpose P1.transpose).transpose
            else bmm3 P1 P2)) np
      else (if mp ≠ 0 then
          slice_rows3 (if et then (bmm3 P2.transpose P1.transpose).transpose
            else bmm3 P1 P2) mp
        else (if et then (bmm3 P2.transpose P1.transpose).transpose
          else bmm3 P1 P2))).batch = A.batch ∧
    (if np ≠ 0 then
        slice_cols3 (if mp ≠ 0 then
            slice_rows3 (if et then (bmm3 P2.transpose P1.transpose).transpose
              else bmm3 P1 P2) mp
          else (if et then (bmm3 P2.transpose P1.transpose).transpose
            else bmm3 P1 P2)) np
      else (if mp ≠ 0 then
          slice_rows3 (if et then (bmm3 P2.transpose P1.transpose).transpose
            else bmm3 P1 P2) mp
        else (if et then (bmm3 P2.transpose P1.transpose).transpose
          else bmm3 P1 P2))).rows = A.rows ∧
    (if np ≠ 0 then
        slice_cols3 (if mp ≠ 0 then
            slice_rows3 (if et then (bmm3 P2.transpose P1.transpose).transpose
              else bmm3 P1 P2) mp
          else (if et then (bmm3 P2.transpose P1.transpose).transpose
            else bmm3 P1 P2)) np
      else (if mp ≠ 0 then
          slice_rows3 (if et then (bmm3 P2.transpose P1.transpose).transpose
            else bmm3 P1 P2) mp
        else (if et then (bmm3 P2.transpose P1.transpose).transpose
          else bmm3 P1 P2))).cols = B.cols ∧
    ∀ bi i j, i < A.rows → j < B.cols →
      (if np ≠ 0 then
          slice_cols3 (if mp ≠ 0 then
              slice_rows3 (if et then (bmm3 P2.transpose P1.transpose).transpose
                else bmm3 P1 P2) mp
            else (if et then (bmm3 P2.transpose P1.transpose).transpose
              else bmm3 P1 P2)) np
        else (if mp ≠ 0 then
            slice_rows3 (if et then (bmm3 P2.transpose P1.transpose).transpose
              else bmm3 P1 P2) mp
          else (if et then (bmm3 P2.transpose P1.transpose).transpose
            else bmm3 P1 P2))).entry bi i j = (bmm3 A B).entry bi i j := by
  have hcore := padded_product_core3 A B P1 P2 mp kp np hAB h1r h1c h1e h2r h2c h2e
  have hres_b : (if et then (bmm3 P2.transpose P1.transpose).transpose
      else bmm3 P1 P2).batch = A.batch := by
    cases et <;> simp [bmm3, Mat3.transpose, h1b, h2b, hbatch]
  have hres_r : (if et then (bmm3 P2.transpose P1.transpose).transpose
      else bmm3 P1 P2).rows = A.rows + mp := by
    cases et <;> simp [bmm3, Mat3.transpose, h1r]
  have hres_c : (if et then (bmm3 P2.transpose P1.transpose).transpose
      else bmm3 P1 P2).cols = B.cols + np := by
    cases et <;> simp [bmm3, Mat3.transpose, h2c]
  have hres_e : ∀ bi i j, i < A.rows → j < B.cols →
      (if et then (bmm3 P2.transpose P1.transpose).transpose
        else bmm3 P1 P2).entry bi i j = (bmm3 A B).entry bi i j := by
    cases et
    · exact hcore.1
    · exact hcore.2
  obtain ⟨hsb, hsr, hsc, hse⟩ := slice3_spec
    (if et then (bmm3 P2.transpose P1.transpose).transpose else bmm3 P1 P2)
    mp np A.rows B.cols hres_r hres_c
  refine ⟨hsb.trans hres_b, hsr, hsc, fun bi i j hi hj => ?_⟩
  rw [hse]
  exact hres_e bi i j hi hj

/-- Round trip of `pad_bmm` against `aten.bmm`. -/
theorem pad_bmm_roundtrip (A B : Mat3) (mp kp np : ℕ) (et : Bool)
    (hAB : A.cols = B.rows) (hbatch : A.batch = B.batch) :
    (pad_bmm A B mp kp np et).batch = (bmm3 A B).batch ∧
    (pad_bmm A B mp kp np et).rows = (bmm3 A B).rows ∧
    (pad_bmm A B mp kp np et).cols = (bmm3 A B).cols ∧
    ∀ bi i j, bi < A.batch → i < A.rows → j < B.cols →
      (pad_bmm A B mp kp np et).entry bi i j = (bmm3 A B).entry bi i j := by
  obtain ⟨h1b, h1r, h1c, h1e⟩ := pad_branch_spec3 A mp kp (kp ≠ 0 ∨ mp ≠ 0)
    (fun h => by push_neg at h; exact ⟨h.2, h.1⟩)
  obtain ⟨h2b, h2r, h2c, h2e⟩ := pad_branch_spec3 B kp np (kp ≠ 0 ∨ np ≠ 0)
    (fun h => by push_neg at h; exact ⟨h.1, h.2⟩)
  obtain ⟨hb, hr, hc, he⟩ := pad_pipeline_spec3
    (if kp ≠ 0 ∨ mp ≠ 0 then constant_pad_nd3 A mp kp else A)
    (if kp ≠ 0 ∨ np ≠ 0 then constant_pad_nd3 B kp np else B)
    A B mp kp np et hAB hbatch h1b h1r h1c h1e h2b h2r h2c h2e
  exact ⟨hb, hr, hc, fun bi i j _ hi hj => he bi i j hi hj⟩

/-- The squeeze performed by `call_addmm` does not change the broadcast
value of the bias. -/
theorem bias_at_call_view (m : Mat2) (i j : ℕ) :
    bias_at (call_bias_view m) i j = bias_at (.mat m) i j := by
  by_cases h1 : m.rows = 1
  · simp only [call_bias_view, if_pos h1, bias_at, h1, if_pos]
    by_cases hc : m.cols = 1 <;> simp [hc]
  · simp [call_bias_view, h1]

/-- The `unsqueeze(0)` applied to a rank-1 bias does not change its
broadcast value. -/
theorem bias_at_unsqueeze (b : BiasT) (i j : ℕ) :
    bias_at (.mat (unsqueeze0 b)) i j = bias_at b i j := by
  cases b with
  | vec n v =>
    simp only [unsqueeze0, bias_at]
    by_cases hn : n = 1 <;> simp [hn]
  | mat m => rfl

/-- `unsqueeze(0)` preserves broadcast compatibility, in rank-2 form. -/
theorem broadcast_ok_unsqueeze (b : BiasT) (M N : ℕ) (h : broadcast_ok b M N) :
    ((unsqueeze0 b).rows = M ∨ (unsqueeze0 b).rows = 1) ∧
    ((unsqueeze0 b).cols = N ∨ (unsqueeze0 b).cols = 1) := by
  cases b with
  | vec n v => exact ⟨Or.inr rfl, h⟩
  | mat m => exact h

/-- The broadcast-aware bias padding of `pad_addmm` does not change the
broadcast value of the bias at any in-range position. -/
theorem bias_at_padded (b2 mat1 mat2 : Mat2) (mp np i j : ℕ)
    (hrow : b2.rows = mat1.rows ∨ b2.rows = 1)
    (hcol : b2.cols = mat2.cols ∨ b2.cols = 1)
    (hi : i < mat1.rows) (hj : j < mat2.cols) :
    bias_at (.mat (pad_addmm_bias b2 mat1 mat2 mp np)) i j = bias_at (.mat b2) i j := by
  simp only [pad_addmm_bias]
  by_cases houter : np ≠ 0 ∨ mp ≠ 0
  · rw [if_pos houter]
    set bm := if b2.rows = 1 ∧ 1 < mat1.rows then 0 else mp with hbm
    set bn := if b2.cols = 1 ∧ 1 < mat2.cols then 0 else np with hbn
    obtain ⟨hPr, hPc, hPe⟩ := pad_branch_spec b2 bm bn (0 < bm ∨ 0 < bn)
      (fun h => by push_neg at h; omega)
    simp only [bias_at, hPr, hPc]
    have hri : (if b2.rows + bm = 1 then 0 else i) = (if b2.rows = 1 then 0 else i) ∧
        (if b2.rows = 1 then 0 else i) < b2.rows := by
      rw [hbm]
      rcases hrow with hb | hb <;> split_ifs <;> omega
    have hcj : (if b2.cols + bn = 1 then 0 else j) = (if b2.cols = 1 then 0 else j) ∧
        (if b2.cols = 1 then 0 else j) < b2.cols := by
      rw [hbn]
      rcases hcol with hb | hb <;> split_ifs <;> omega
    rw [hri.1, hcj.1, hPe _ _ (by omega) (by omega), if_pos ⟨hri.2, hcj.2⟩]
  · rw [if_neg houter]

/-- Round trip of `pad_addmm` against `aten.addmm`. -/
theorem pad_addmm_roundtrip (bias : BiasT) (A B : Mat2) (mp kp np : ℕ)
    (beta alpha : ℚ) (et : Bool) (hAB : A.cols = B.rows)
    (hok : broadcast_ok bias A.rows B.cols) :
    ∃ R, pad_addmm (some bias) A B mp kp np beta alpha et = some R ∧
      R.rows = (aten_addmm bias A B beta alpha).rows ∧
      R.cols = (aten_addmm bias A B beta alpha).cols ∧
      ∀ i j, i < A.rows → j < B.cols →
        R.entry i j = (aten_addmm bias A B beta alpha).entry i j := by
  obtain ⟨h1r, h1c, h1e⟩ := pad_branch_spec A mp kp (kp ≠ 0 ∨ mp ≠ 0)
    (fun h => by push_neg at h; exact ⟨h.2, h.1⟩)
  obtain ⟨h2r, h2c, h2e⟩ := pad_branch_spec B kp np (kp ≠ 0 ∨ np ≠ 0)
    (fun h => by push_neg at h; exact ⟨h.1, h.2⟩)
  have hcore := padded_product_core A B
    (if kp ≠ 0 ∨ mp ≠ 0 then constant_pad_nd2 A mp kp else A)
    (if kp ≠ 0 ∨ np ≠ 0 then constant_pad_nd2 B kp np else B)
    mp kp np hAB h1r h1c h1e h2r h2c h2e
  cases et with
  | true =>
    refine ⟨_, rfl, ?_, ?_, ?_⟩
    all_goals {
      have hres_r : (mm2 (if kp ≠ 0 ∨ np ≠ 0 then constant_pad_nd2 B kp np
            else B).transpose
          (if kp ≠ 0 ∨ mp ≠ 0 then constant_pad_nd2 A mp kp
            else A).transpose).transpose.rows = A.rows + mp := by
        simp [mm2, Mat2.transpose, h1r]
      have hres_c : (mm2 (if kp ≠ 0 ∨ np ≠ 0 then constant_pad_nd2 B kp np
            else B).transpose
          (if kp ≠ 0 ∨ mp ≠ 0 then constant_pad_nd2 A mp kp
            else A).transpose).transpose.cols = B.cols + np := by
        simp [mm2, Mat2.transpose, h2c]
      obtain ⟨hsr, hsc, hse⟩ := slice2_spec
        (mm2 (if kp ≠ 0 ∨ np ≠ 0 then constant_pad_nd2 B kp np else B).transpose
          (if kp ≠ 0 ∨ mp ≠ 0 then constant_pad_nd2 A mp kp else A).transpose).transpose
        mp np A.rows B.cols hres_r hres_c
      first
      | exact hsr
      | exact hsc
      | {
        intro i j hi hj
        dsimp only [aten_addmm]
        rw [hse, hcore.2 i j hi hj]
        by_cases hab : alpha = 1 ∧ beta = 1
        · rw [if_pos hab, hab.1, hab.2]
          ring
        · rw [if_neg hab]
          ring
      }
    }
  | false =>
    refine ⟨_, rfl, ?_, ?_, ?_⟩
    all_goals {
      have hres_r : (call_addmm (pad_addmm_bias (unsqueeze0 bias) A B mp np)
          (if kp ≠ 0 ∨ mp ≠ 0 then constant_pad_nd2 A mp kp else A)
          (if kp ≠ 0 ∨ np ≠ 0 then constant_pad_nd2 B kp np else B)
          beta alpha).rows = A.rows + mp := by
        simpa [call_addmm, aten_addmm] using h1r
      have hres_c : (call_addmm (pad_addmm_bias (unsqueeze0 bias) A B mp np)
          (if kp ≠ 0 ∨ mp ≠ 0 then constant_pad_nd2 A mp kp else A)
          (if kp ≠ 0 ∨ np ≠ 0 then constant_pad_nd2 B kp np else B)
          beta alpha).cols = B.cols + np := by
        simpa [call_addmm, aten_addmm] using h2c
      obtain ⟨hsr, hsc, hse⟩ := slice2_spec
        (call_addmm (pad_addmm_bias (unsqueeze0 bias) A B mp np)
          (if kp ≠ 0 ∨ mp ≠ 0 then constant_pad_nd2 A mp kp else A)
          (if kp ≠ 0 ∨ np ≠ 0 then constant_pad_nd2 B kp np else B)
          beta alpha)
        mp np A.rows B.cols hres_r hres_c
      first
      | exact hsr
      | exact hsc
      | {
        intro i j hi hj
        rw [hse]
        calc (call_addmm (pad_addmm_bias (unsqueeze0 bias) A B mp np)
            (if kp ≠ 0 ∨ mp ≠ 0 then constant_pad_nd2 A mp kp else A)
            (if kp ≠ 0 ∨ np ≠ 0 then constant_pad_nd2 B kp np else B)
            beta alpha).entry i j
            = beta * bias_at (call_bias_view
                  (pad_addmm_bias (unsqueeze0 bias) A B mp np)) i j +
                alpha * (mm2
                  (if kp ≠ 0 ∨ mp ≠ 0 then constant_pad_nd2 A mp kp else A)
                  (if kp ≠ 0 ∨ np ≠ 0 then constant_pad_nd2 B kp np else B)).entry i j := rfl
          _ = beta * bias_at bias i j + alpha * (mm2 A B).entry i j := by
              rw [bias_at_call_view,
                bias_at_padded (unsqueeze0 bias) A B mp np i j
                  (broadcast_ok_unsqueeze bias A.rows B.cols hok).1
                  (broadcast_ok_unsqueeze bias A.rows B.cols hok).2 hi hj,
                bias_at_unsqueeze, hcore.1 i j hi hj]
          _ = (aten_addmm bias A B beta alpha).entry i j := rfl
      }
    }

/-- Claim C1: for every eligible operand pair (and bias for addmm) and every
non-negative pad triple, with or without explicit transpose, `pad_mm`,
`pad_bmm` and `pad_addmm` return a result with exactly the same bounds as
the unpadded operator applied to the same inputs, and entries equal to the
unpadded result at every in-range position (exact equality over `ℚ`, the
model of floating-point tolerance). -/
theorem C1_pad_roundtrip :
    (∀ (mat1 mat2 : Mat2) (mp kp np : ℕ) (et : Bool), mat1.cols = mat2.rows →
      (pad_mm mat1 mat2 mp kp np et).rows = (mm2 mat1 mat2).rows ∧
      (pad_mm mat1 mat2 mp kp np et).cols = (mm2 mat1 mat2).cols ∧
      ∀ i j, i < mat1.rows → j < mat2.cols →
        (pad_mm mat1 mat2 mp kp np et).entry i j = (mm2 mat1 mat2).entry i j) ∧
    (∀ (mat1 mat2 : Mat3) (mp kp np : ℕ) (et : Bool),
      mat1.cols = mat2.rows → mat1.batch = mat2.batch →
      (pad_bmm mat1 mat2 mp kp np et).batch = (bmm3 mat1 mat2).batch ∧
      (pad_bmm mat1 mat2 mp kp np et).rows = (bmm3 mat1 mat2).rows ∧
      (pad_bmm mat1 mat2 mp kp np et).cols = (bmm3 mat1 mat2).cols ∧
      ∀ bi i j, bi < mat1.batch → i < mat1.rows → j < mat2.cols →
        (pad_bmm mat1 mat2 mp kp np et).entry bi i j = (bmm3 mat1 mat2).entry bi i j) ∧
    (∀ (bias : BiasT) (mat1 mat2 : Mat2) (mp kp np : ℕ) (beta alpha : ℚ) (et : Bool),
      mat1.cols = mat2.rows → broadcast_ok bias mat1.rows mat2.cols →
      ∃ R, pad_addmm (some bias) mat1 mat2 mp kp np beta alpha et = some R ∧
        R.rows = (aten_addmm bias mat1 mat2 beta alpha).rows ∧
        R.cols = (aten_addmm bias mat1 mat2 beta alpha).cols ∧
        ∀ i j, i < mat1.rows → j < mat2.cols →
          R.entry i j = (aten_addmm bias mat1 mat2 beta alpha).entry i j) :=
  ⟨fun mat1 mat2 mp kp np et h => pad_mm_roundtrip mat1 mat2 mp kp np et h,
   fun mat1 mat2 mp kp np et h hb => pad_bmm_roundtrip mat1 mat2 mp kp np et h hb,
   fun bias mat1 mat2 mp kp np beta alpha et h hok =>
     pad_addmm_roundtrip bias mat1 mat2 mp kp np beta alpha et h hok⟩

/-- Witness for C1: concrete 2 × 3 by 3 × 2 matrices with pads (2, 1, 3)
under explicit transpose, concrete batched tensors with pads (1, 2, 0), and
a concrete addmm with a rank-1 bias and beta = 2, alpha = 3. -/
theorem C1_pad_roundtrip_witness :
    (wMat1.cols = wMat2.rows ∧
      ((pad_mm wMat1 wMat2 2 1 3 true).rows = (mm2 wMat1 wMat2).rows ∧
        (pad_mm wMat1 wMat2 2 1 3 true).cols = (mm2 wMat1 wMat2).cols ∧
        ∀ i j, i < wMat1.rows → j < wMat2.cols →
          (pad_mm wMat1 wMat2 2 1 3 true).entry i j = (mm2 wMat1 wMat2).entry i j)) ∧
    (wBat1.cols = wBat2.rows ∧ wBat1.batch = wBat2.batch ∧
      ((pad_bmm wBat1 wBat2 1 2 0 false).batch = (bmm3 wBat1 wBat2).batch ∧
        (pad_bmm wBat1 wBat2 1 2 0 false).rows = (bmm3 wBat1 wBat2).rows ∧
        (pad_bmm wBat1 wBat2 1 2 0 false).cols = (bmm3 wBat1 wBat2).cols ∧
        ∀ bi i j, bi < wBat1.batch → i < wBat1.rows → j < wBat2.cols →
          (pad_bmm wBat1 wBat2 1 2 0 false).entry bi i j =
            (bmm3 wBat1 wBat2).entry bi i j)) ∧
    (wMat1.cols = wMat2.rows ∧ broadcast_ok wBias wMat1.rows wMat2.cols ∧
      (∃ R, pad_addmm (some wBias) wMat1 wMat2 2 1 3 2 3 false = some R ∧
        R.rows = (aten_addmm wBias wMat1 wMat2 2 3).rows ∧
        R.cols = (aten_addmm wBias wMat1 wMat2 2 3).cols ∧
        ∀ i j, i < wMat1.rows → j < wMat2.cols →
          R.entry i j = (aten_addmm wBias wMat1 wMat2 2 3).entry i j)) :=
  ⟨⟨rfl, C1_pad_roundtrip.1 wMat1 wMat2 2 1 3 true rfl⟩,
   ⟨rfl, rfl, C1_pad_roundtrip.2.1 wBat1 wBat2 1 2 0 false rfl rfl⟩,
   ⟨rfl, Or.inl rfl,
     C1_pad_roundtrip.2.2 wBias wMat1 wMat2 2 1 3 2 3 false rfl (Or.inl rfl)⟩⟩

/-- Claim C5: in `pad_addmm`, a bias dimension of size 1 whose matching
matmul operand dimension is larger is never padded, regardless of the
computed M/N pad amounts: the padded bias keeps size 1 there. -/
theorem C5_broadcast_safe (bias : BiasT) (mat1 mat2 : Mat2) (mp np : ℕ) :
    ((unsqueeze0 bias).rows = 1 → 1 < mat1.rows →
      (pad_addmm_bias (unsqueeze0 bias) mat1 mat2 mp np).rows = 1) ∧
    ((unsqueeze0 bias).cols = 1 → 1 < mat2.cols →
      (pad_addmm_bias (unsqueeze0 bias) mat1 mat2 mp np).cols = 1) := by
  constructor
  · intro h1 hM
    simp only [pad_addmm_bias]
    split_ifs <;> simp_all [constant_pad_nd2]
  · intro h1 hN
    simp only [pad_addmm_bias]
    split_ifs <;> simp_all [constant_pad_nd2]

/-- Witness for C5: a rank-1 bias (unsqueezed to one row) against a matrix
with 2 rows, with both pad amounts nonzero. -/
theorem C5_broadcast_safe_witness :
    (unsqueeze0 wBias).rows = 1 ∧ 1 < wMat1.rows ∧
    (pad_addmm_bias (unsqueeze0 wBias) wMat1 wMat2 3 1).rows = 1 :=
  ⟨rfl, by decide, (C5_broadcast_safe wBias wMat1 wMat2 3 1).1 rfl (by decide)⟩
